import Mathlib

/-!
Shallow embedding of the Term / TermSubject lifecycle engine of the
student-workload backend, together with theorems settling the frozen
claims about it.

Conventions of the embedding:
* dates and timestamps are day numbers (`Nat`); SQL `DATE`/`NOW()`
  comparisons are monotone in these numbers;
* database tables are lists of row structures; a SQL `UPDATE ... WHERE`
  is a `List.map` guarded by the `WHERE` predicate, a `DELETE ... WHERE`
  is a `List.filter`, an `INSERT` is an append;
* a service function that can throw a `BusinessError` returns
  `Except BusinessError α`; the error carries the stable code string and
  the HTTP status, exactly as constructed at the throw site;
* existence pre-checks on ids (`TERM_SUBJECT_NOT_FOUND`, ...) are
  modelled by passing the found row directly, since every claim
  quantifies over term subjects / assignments that exist.
-/

namespace StudentWorkload

/-- The three values of `term_subjects.workload_approved`. -/
inductive WStatus
  | pending
  | submitted
  | approved
deriving DecidableEq, Repr

/-- A `term_subjects` row, with the columns used by the service layer.
`outline_approved` / `report_approved` keep their stored strings. -/
structure TermSubject where
  id : Nat
  term_id : Nat
  subject_id : Nat
  is_active : Bool
  outline_status : Bool
  outline_approved : String
  workload_status : Bool
  report_status : Bool
  report_approved : String
  workload_approved : WStatus
  created_at : Nat
  created_by : Nat
  updated_at : Nat
  updated_by : Nat
deriving DecidableEq, Repr

/-- A raised `BusinessError`: its stable string code and HTTP status. -/
structure BusinessError where
  code : String
  statusCode : Nat
deriving DecidableEq, Repr

/-- `updateWorkloadStatus` (termSubject.repository): the SQL
`UPDATE term_subjects SET workload_approved = $1, updated_at = NOW(),
updated_by = $2 WHERE id = $3` applied to the row, with `now` standing
for `NOW()`. -/
def updateWorkloadStatus (ts : TermSubject) (status : WStatus) (userId now : Nat) :
    TermSubject :=
  { ts with workload_approved := status, updated_at := now, updated_by := userId }

/-- `submitWorkload(termSubjectId, userId)` of the term-subject service,
on the term subject row `ts` (found by `findTermSubjectById`) and the
user ids `professors` returned by `findProfessorsByTermSubject`.
The JS guard `professors.some(p => p.user_id === userId)` is membership
of `userId` in that list. -/
def submitWorkload (ts : TermSubject) (professors : List Nat) (userId now : Nat) :
    Except BusinessError TermSubject :=
  if userId ∈ professors then
    if ts.workload_approved = .submitted then
      .error ⟨"ALREADY_SUBMITTED", 409⟩
    else if ts.workload_approved = .approved then
      .error ⟨"ALREADY_APPROVED", 409⟩
    else
      .ok (updateWorkloadStatus ts .submitted userId now)
  else
    .error ⟨"NOT_ASSIGNED", 403⟩

/-- `approveWorkload(termSubjectId, userId)` of the term-subject service
on the found row `ts`. -/
def approveWorkload (ts : TermSubject) (userId now : Nat) :
    Except BusinessError TermSubject :=
  if ts.workload_approved = .pending then
    .error ⟨"NOT_SUBMITTED", 400⟩
  else if ts.workload_approved = .approved then
    .error ⟨"ALREADY_APPROVED", 409⟩
  else
    .ok (updateWorkloadStatus ts .approved userId now)

/-- `rejectWorkload(termSubjectId, userId, reason = null)` of the
term-subject service on the found row `ts`.  The `reason` argument is
only logged by the source, so it does not occur in the result. -/
def rejectWorkload (ts : TermSubject) (userId now : Nat) (reason : Option String) :
    Except BusinessError TermSubject :=
  if ts.workload_approved = .pending then
    .error ⟨"NOT_SUBMITTED", 400⟩
  else if ts.workload_approved = .approved then
    .error ⟨"ALREADY_APPROVED", 400⟩
  else
    .ok (updateWorkloadStatus ts .pending userId now)

end StudentWorkload

namespace StudentWorkload

/-- C1: `submitWorkload` fails with `NOT_ASSIGNED` (403) when the caller
is not an assigned instructor; otherwise it fails with
`ALREADY_SUBMITTED` (409) in state `submitted`, with `ALREADY_APPROVED`
(409) in state `approved`, and in the remaining case (state `pending`)
transitions the state to `submitted`; it succeeds in exactly that case,
so it fails for no other reason. -/
theorem submitWorkload_spec (ts : TermSubject) (professors : List Nat)
    (userId now : Nat) :
    (userId ∉ professors →
      submitWorkload ts professors userId now = .error ⟨"NOT_ASSIGNED", 403⟩) ∧
    (userId ∈ professors → ts.workload_approved = .submitted →
      submitWorkload ts professors userId now = .error ⟨"ALREADY_SUBMITTED", 409⟩) ∧
    (userId ∈ professors → ts.workload_approved = .approved →
      submitWorkload ts professors userId now = .error ⟨"ALREADY_APPROVED", 409⟩) ∧
    (userId ∈ professors → ts.workload_approved = .pending →
      submitWorkload ts professors userId now =
        .ok (updateWorkloadStatus ts .submitted userId now)) ∧
    ((∃ ts', submitWorkload ts professors userId now = .ok ts') ↔
      userId ∈ professors ∧ ts.workload_approved = .pending) := by
  unfold submitWorkload
  by_cases hmem : userId ∈ professors <;>
    cases hst : ts.workload_approved <;>
      simp [hmem, hst]

/-- A concrete pending term subject used by witnesses. -/
def tsPendingSample : TermSubject :=
  ⟨1, 1, 1, true, false, "pending", false, false, "pending", .pending, 0, 1, 0, 1⟩

/-- A concrete submitted term subject used by witnesses. -/
def tsSubmittedSample : TermSubject :=
  ⟨2, 1, 2, true, false, "pending", false, false, "pending", .submitted, 0, 1, 0, 1⟩

/-- Witness for C1: a concrete pending term subject with assigned
professor 7 submits successfully. -/
theorem submitWorkload_spec_witness :
    submitWorkload tsPendingSample [7, 8] 7 5 =
      .ok (updateWorkloadStatus tsPendingSample .submitted 7 5) :=
  (submitWorkload_spec tsPendingSample [7, 8] 7 5).2.2.2.1 (by decide) rfl

/-- C2: `approveWorkload` fails with `NOT_SUBMITTED` in state `pending`
and with `ALREADY_APPROVED` in state `approved`, and otherwise moves the
state to `approved`; `rejectWorkload` fails with `NOT_SUBMITTED` in
state `pending`, fails in state `approved` (no un-approval), and
otherwise moves the state back to `pending`; and a successful submit is
always followed by a successful approve. -/
theorem approveRejectWorkload_spec (ts : TermSubject) (userId now : Nat)
    (reason : Option String) :
    (ts.workload_approved = .pending →
      approveWorkload ts userId now = .error ⟨"NOT_SUBMITTED", 400⟩) ∧
    (ts.workload_approved = .approved →
      approveWorkload ts userId now = .error ⟨"ALREADY_APPROVED", 409⟩) ∧
    (ts.workload_approved = .submitted →
      approveWorkload ts userId now =
        .ok (updateWorkloadStatus ts .approved userId now)) ∧
    (ts.workload_approved = .pending →
      rejectWorkload ts userId now reason = .error ⟨"NOT_SUBMITTED", 400⟩) ∧
    (ts.workload_approved = .approved →
      ∃ e, rejectWorkload ts userId now reason = .error e) ∧
    (ts.workload_approved = .submitted →
      rejectWorkload ts userId now reason =
        .ok (updateWorkloadStatus ts .pending userId now)) ∧
    (∀ professors uid1 n1 ts',
      submitWorkload ts professors uid1 n1 = .ok ts' →
      approveWorkload ts' userId now =
        .ok (updateWorkloadStatus ts' .approved userId now)) := by
  refine ⟨?_, ?_, ?_, ?_, ?_, ?_, ?_⟩
  case _ => intro h; simp [approveWorkload, h]
  case _ => intro h; simp [approveWorkload, h]
  case _ => intro h; simp [approveWorkload, h]
  case _ => intro h; simp [rejectWorkload, h]
  case _ =>
    intro h
    exact ⟨⟨"ALREADY_APPROVED", 400⟩, by simp [rejectWorkload, h]⟩
  case _ => intro h; simp [rejectWorkload, h]
  case _ =>
    intro professors uid1 n1 ts' hok
    unfold submitWorkload at hok
    by_cases hmem : uid1 ∈ professors <;>
      cases hst : ts.workload_approved <;>
        simp [hmem, hst] at hok <;>
          simp [← hok, approveWorkload, updateWorkloadStatus]

/-- Witness for C2: on a concrete submitted term subject, reject resets
the state to pending. -/
theorem approveRejectWorkload_spec_witness :
    rejectWorkload tsSubmittedSample 9 6 (some "late") =
      .ok (updateWorkloadStatus tsSubmittedSample .pending 9 6) :=
  (approveRejectWorkload_spec tsSubmittedSample 9 6 (some "late")).2.2.2.2.2.1 rfl

/-- C10: the stored outcome of `rejectWorkload` does not depend on the
supplied rejection reason (including an omitted one), and on success the
persisted record differs from the input row only in
`workload_approved`, `updated_at` and `updated_by`. -/
theorem rejectWorkload_reason_not_persisted (ts : TermSubject)
    (userId now : Nat) (r1 r2 : Option String) :
    rejectWorkload ts userId now r1 = rejectWorkload ts userId now r2 ∧
    (∀ ts', rejectWorkload ts userId now r1 = .ok ts' →
      ts' = { ts with workload_approved := .pending,
                      updated_at := now, updated_by := userId }) := by
  constructor
  · rfl
  · intro ts' h
    unfold rejectWorkload at h
    cases hst : ts.workload_approved <;> simp [hst] at h <;>
      simp [← h, updateWorkloadStatus]

/-- Witness for C10: rejecting a concrete submitted row with a reason
yields exactly the record with the state reset and audit fields
updated, nothing else changed. -/
theorem rejectWorkload_reason_not_persisted_witness :
    updateWorkloadStatus tsSubmittedSample .pending 4 9 =
      { tsSubmittedSample with workload_approved := .pending,
                               updated_at := 9, updated_by := 4 } :=
  (rejectWorkload_reason_not_persisted tsSubmittedSample 4 9
    (some "fix hours") none).2 _ rfl

end StudentWorkload

namespace StudentWorkload

/-- A `term_subjects_professor` row: the assignment of one lecturer
(user) to one term subject, with the responsible-lecturer flag and the
free-text notes.  `notes` is `none` when the column is NULL. -/
structure LecturerAssignment where
  id : Nat
  term_subject_id : Nat
  user_id : Nat
  is_responsible : Bool
  notes : Option String
  created_at : Nat
  created_by : Nat
deriving DecidableEq, Repr

/-- `assignProfessor` (termSubject.repository): the SQL
`INSERT INTO term_subjects_professor (term_subject_id, user_id,
created_at, created_by) VALUES ... ON CONFLICT (term_subject_id,
user_id) DO NOTHING`.  `newId` is the SERIAL id of the inserted row;
`is_responsible := false` and `notes := none` are the column defaults
(modelled from the spec: the table DDL is not in the repository, and
the spec makes a fresh assignment carry no responsibility). -/
def assignProfessor (rows : List LecturerAssignment)
    (termSubjectId userId createdBy newId now : Nat) : List LecturerAssignment :=
  if rows.any (fun r => r.term_subject_id == termSubjectId && r.user_id == userId) then
    rows
  else
    rows ++ [⟨newId, termSubjectId, userId, false, none, now, createdBy⟩]

/-- `removeProfessor` (termSubject.repository): `DELETE FROM
term_subjects_professor WHERE term_subject_id = $1 AND user_id = $2`. -/
def removeProfessor (rows : List LecturerAssignment)
    (termSubjectId userId : Nat) : List LecturerAssignment :=
  rows.filter (fun r => !(r.term_subject_id == termSubjectId && r.user_id == userId))

/-- Modelled from the spec: the repository function
`findLecturerAssignment(termSubjectId, userId)` (not under src/, only
its callers are) looks up the assignment row joining the term subject
and the lecturer. -/
def findLecturerAssignment (rows : List LecturerAssignment)
    (termSubjectId userId : Nat) : Option LecturerAssignment :=
  rows.find? (fun r => r.term_subject_id == termSubjectId && r.user_id == userId)

/-- Modelled from the spec: the repository function
`findLecturerAssignmentById(assignmentId)` (not under src/) looks up an
assignment row by its id. -/
def findLecturerAssignmentById (rows : List LecturerAssignment)
    (assignmentId : Nat) : Option LecturerAssignment :=
  rows.find? (fun r => r.id == assignmentId)

/-- Modelled from the spec: the repository function
`clearResponsibleLecturers(termSubjectId)` (not under src/) clears
`is_responsible` on every assignment row of the term subject. -/
def clearResponsibleLecturers (rows : List LecturerAssignment)
    (termSubjectId : Nat) : List LecturerAssignment :=
  rows.map (fun r =>
    if r.term_subject_id == termSubjectId then { r with is_responsible := false } else r)

/-- Modelled from the spec: the repository function
`updateLecturerAssignment(id, { is_responsible, notes })` (not under
src/) sets the responsibility flag and the notes on the row with the
given id. -/
def updateLecturerAssignment (rows : List LecturerAssignment)
    (assignmentId : Nat) (isResponsible : Bool) (notes : Option String) :
    List LecturerAssignment :=
  rows.map (fun r =>
    if r.id == assignmentId then
      { r with is_responsible := isResponsible, notes := notes }
    else r)

/-- Modelled from the spec: the repository function
`countLecturers(termSubjectId)` (not under src/) counts the assignment
rows of the term subject. -/
def countLecturers (rows : List LecturerAssignment) (termSubjectId : Nat) : Nat :=
  rows.countP (fun r => r.term_subject_id == termSubjectId)

/-- Modelled from the spec: the repository function
`deleteLecturerAssignment(assignmentId)` (not under src/) deletes the
row with the given id. -/
def deleteLecturerAssignment (rows : List LecturerAssignment)
    (assignmentId : Nat) : List LecturerAssignment :=
  rows.filter (fun r => r.id != assignmentId)

/-- `changeResponsibleLecturer(termSubjectId, newResponsibleUserId)` of
the term-subject service on the assignment table `rows`: requires the
target to be an assignee, then within one transaction clears all
responsibility flags of the term subject and sets the target row. -/
def changeResponsibleLecturer (rows : List LecturerAssignment)
    (termSubjectId newResponsibleUserId : Nat) :
    Except BusinessError (List LecturerAssignment) :=
  match findLecturerAssignment rows termSubjectId newResponsibleUserId with
  | none => .error ⟨"LECTURER_NOT_ASSIGNED", 400⟩
  | some lecturerAssignment =>
      .ok (updateLecturerAssignment
            (clearResponsibleLecturers rows termSubjectId)
            lecturerAssignment.id true lecturerAssignment.notes)

/-- `updateLecturerNotes(assignmentId, notes)` of the term-subject
service: re-writes the row keeping its `is_responsible` value. -/
def updateLecturerNotes (rows : List LecturerAssignment)
    (assignmentId : Nat) (notes : Option String) :
    Except BusinessError (List LecturerAssignment) :=
  match findLecturerAssignmentById rows assignmentId with
  | none => .error ⟨"ASSIGNMENT_NOT_FOUND", 404⟩
  | some assignment =>
      .ok (updateLecturerAssignment rows assignmentId assignment.is_responsible notes)

/-- `removeLecturer(assignmentId)` of the term-subject service: refuses
to remove a responsible lecturer while other lecturers remain assigned
to the same term subject. -/
def removeLecturer (rows : List LecturerAssignment) (assignmentId : Nat) :
    Except BusinessError (List LecturerAssignment) :=
  match findLecturerAssignmentById rows assignmentId with
  | none => .error ⟨"ASSIGNMENT_NOT_FOUND", 404⟩
  | some assignment =>
      if assignment.is_responsible then
        if 1 < countLecturers rows assignment.term_subject_id then
          .error ⟨"CANNOT_REMOVE_RESPONSIBLE", 400⟩
        else
          .ok (deleteLecturerAssignment rows assignmentId)
      else
        .ok (deleteLecturerAssignment rows assignmentId)

/-- `assignProfessorToSubject(termSubjectId, professorId, createdBy)` of
the term-subject service: checks the professor is not yet assigned
(`existingAssignment.some(p => p.user_id === professorId)`), then
inserts through `assignProfessor`.  Existence checks of the term
subject and of the user are modelled away as in the other services. -/
def assignProfessorToSubject (rows : List LecturerAssignment)
    (termSubjectId professorId createdBy newId now : Nat) :
    Except BusinessError (List LecturerAssignment) :=
  if rows.any (fun r => r.term_subject_id == termSubjectId && r.user_id == professorId) then
    .error ⟨"ALREADY_ASSIGNED", 409⟩
  else
    .ok (assignProfessor rows termSubjectId professorId createdBy newId now)

/-- Number of responsible-lecturer rows of one term subject. -/
def respCount (rows : List LecturerAssignment) (termSubjectId : Nat) : Nat :=
  rows.countP (fun r => r.term_subject_id == termSubjectId && r.is_responsible)

/-- The responsible-lecturer invariant: at most one assignment per term
subject has `is_responsible = true`. -/
def atMostOneResponsible (rows : List LecturerAssignment) : Prop :=
  ∀ termSubjectId, respCount rows termSubjectId ≤ 1

/-- The table invariant that assignment ids (SERIAL primary key) are
pairwise distinct. -/
def idsNodup (rows : List LecturerAssignment) : Prop :=
  (rows.map LecturerAssignment.id).Nodup

end StudentWorkload

namespace StudentWorkload

/-- A one-row assignment table: professor 5 assigned to term subject 10. -/
def assignSampleRows : List LecturerAssignment :=
  [⟨1, 10, 5, false, none, 0, 2⟩]

/-- Counterexample for C8: on the concrete state where professor 5 is
already assigned to term subject 10, the service call fails with
`ALREADY_ASSIGNED` (409) instead of succeeding as a no-op, so assigning
an already-assigned instructor is not a successful no-op. -/
theorem assignProfessorToSubject_already_assigned_cex :
    assignProfessorToSubject assignSampleRows 10 5 2 9 3 =
      .error ⟨"ALREADY_ASSIGNED", 409⟩ := rfl

/-- C8 (amended): the repository insert `assignProfessor` is idempotent
on the stored assignments — inserting an already-present
(term subject, user) pair leaves the table unchanged, and assigning
twice yields the same table as assigning once — while the service
`assignProfessorToSubject` rejects an already-assigned instructor with
`ALREADY_ASSIGNED` (409), leaving the state unchanged. -/
theorem assignProfessor_idempotent (rows : List LecturerAssignment)
    (termSubjectId userId createdBy n1 n2 t1 t2 : Nat) :
    ((∃ r ∈ rows, r.term_subject_id = termSubjectId ∧ r.user_id = userId) →
      assignProfessor rows termSubjectId userId createdBy n1 t1 = rows ∧
      assignProfessorToSubject rows termSubjectId userId createdBy n1 t1 =
        .error ⟨"ALREADY_ASSIGNED", 409⟩) ∧
    assignProfessor (assignProfessor rows termSubjectId userId createdBy n1 t1)
        termSubjectId userId createdBy n2 t2 =
      assignProfessor rows termSubjectId userId createdBy n1 t1 := by
  constructor
  · rintro ⟨r, hr, hts, huid⟩
    have hany : rows.any
        (fun r => r.term_subject_id == termSubjectId && r.user_id == userId) = true := by
      simp only [List.any_eq_true, Bool.and_eq_true, beq_iff_eq]
      exact ⟨r, hr, hts, huid⟩
    constructor
    · simp [assignProfessor, hany]
    · simp [assignProfessorToSubject, hany]
  · by_cases hany : rows.any
        (fun r => r.term_subject_id == termSubjectId && r.user_id == userId) = true
    · simp [assignProfessor, hany]
    · have hstep : assignProfessor rows termSubjectId userId createdBy n1 t1 =
          rows ++ [⟨n1, termSubjectId, userId, false, none, t1, createdBy⟩] := by
        simp [assignProfessor, hany]
      rw [hstep]
      have h2 : ((rows ++ [(⟨n1, termSubjectId, userId, false, none, t1,
            createdBy⟩ : LecturerAssignment)]).any
          (fun r => r.term_subject_id == termSubjectId && r.user_id == userId)) = true := by
        simp
      simp [assignProfessor, h2]

/-- Witness for C8 (amended): with professor 5 already assigned to term
subject 10, the repository insert leaves the table unchanged. -/
theorem assignProfessor_idempotent_witness :
    assignProfessor assignSampleRows 10 5 2 9 3 = assignSampleRows :=
  ((assignProfessor_idempotent assignSampleRows 10 5 2 9 9 3 3).1
    ⟨⟨1, 10, 5, false, none, 0, 2⟩, by decide, rfl, rfl⟩).1

/-- If one member of `rows` satisfies `p` and all ids are distinct, the
count of `p` exceeds one exactly when a second, different row satisfies
`p`. -/
theorem countP_gt_one_iff (p : LecturerAssignment → Bool)
    (rows : List LecturerAssignment) (a : LecturerAssignment)
    (hnd : idsNodup rows) (ha : a ∈ rows) (hp : p a = true) :
    1 < rows.countP p ↔ ∃ r ∈ rows, r.id ≠ a.id ∧ p r = true := by
  induction rows with
  | nil => cases ha
  | cons b rest ih =>
      have hnd' : idsNodup rest := by
        have := hnd
        simp only [idsNodup, List.map_cons, List.nodup_cons] at this
        exact this.2
      have hbid : b.id ∉ rest.map LecturerAssignment.id := by
        have := hnd
        simp only [idsNodup, List.map_cons, List.nodup_cons] at this
        exact this.1
      rcases List.mem_cons.mp ha with hab | harest
      · subst hab
        rw [List.countP_cons_of_pos _ _ hp]
        constructor
        · intro h
          have hpos : 0 < rest.countP p := by omega
          obtain ⟨r, hr, hpr⟩ := List.countP_pos.mp hpos
          refine ⟨r, List.mem_cons_of_mem _ hr, ?_, hpr⟩
          intro hid
          exact hbid (hid ▸ List.mem_map_of_mem LecturerAssignment.id hr)
        · rintro ⟨r, hr, hid, hpr⟩
          rcases List.mem_cons.mp hr with rfl | hr'
          · exact absurd rfl hid
          · have : 0 < rest.countP p := List.countP_pos.mpr ⟨r, hr', hpr⟩
            omega
      · have hba : b.id ≠ a.id := by
          intro h
          exact hbid (h ▸ List.mem_map_of_mem LecturerAssignment.id harest)
        by_cases hpb : p b = true
        · rw [List.countP_cons_of_pos _ _ hpb]
          have hpos : 0 < rest.countP p := List.countP_pos.mpr ⟨a, harest, hp⟩
          constructor
          · intro _
            exact ⟨b, List.mem_cons_self b rest, hba, hpb⟩
          · intro _
            omega
        · rw [List.countP_cons_of_neg _ _ (by simpa using hpb)]
          rw [ih hnd' harest]
          constructor
          · rintro ⟨r, hr, hid, hpr⟩
            exact ⟨r, List.mem_cons_of_mem _ hr, hid, hpr⟩
          · rintro ⟨r, hr, hid, hpr⟩
            rcases List.mem_cons.mp hr with rfl | hr'
            · exact absurd hpr hpb
            · exact ⟨r, hr', hid, hpr⟩

/-- C9: with the target assignment row `a` found by id, `removeLecturer`
fails with `CANNOT_REMOVE_RESPONSIBLE` (400) exactly when `a` is the
responsible lecturer and some other lecturer row remains on the same
term subject; otherwise (sole responsible assignee, or any
non-responsible assignee) it succeeds, deleting exactly the target row
and leaving every other assignment unchanged. -/
theorem removeLecturer_spec (rows : List LecturerAssignment)
    (assignmentId : Nat) (a : LecturerAssignment) (hnd : idsNodup rows)
    (hfind : findLecturerAssignmentById rows assignmentId = some a) :
    (removeLecturer rows assignmentId = .error ⟨"CANNOT_REMOVE_RESPONSIBLE", 400⟩ ↔
      a.is_responsible = true ∧
        ∃ r ∈ rows, r.id ≠ a.id ∧ r.term_subject_id = a.term_subject_id) ∧
    (¬(a.is_responsible = true ∧
        ∃ r ∈ rows, r.id ≠ a.id ∧ r.term_subject_id = a.term_subject_id) →
      removeLecturer rows assignmentId = .ok (deleteLecturerAssignment rows assignmentId) ∧
      (∀ r ∈ rows, r.id ≠ assignmentId →
        r ∈ deleteLecturerAssignment rows assignmentId) ∧
      a ∉ deleteLecturerAssignment rows assignmentId) := by
  have hfind' : rows.find? (fun r => r.id == assignmentId) = some a := hfind
  have hamem : a ∈ rows := List.mem_of_find?_eq_some hfind'
  have haid' : a.id = assignmentId := by
    have := List.find?_some hfind'
    simpa using this
  have hcount : 1 < countLecturers rows a.term_subject_id ↔
      ∃ r ∈ rows, r.id ≠ a.id ∧ r.term_subject_id = a.term_subject_id := by
    rw [countLecturers,
      countP_gt_one_iff (fun r => r.term_subject_id == a.term_subject_id) rows a hnd hamem
        (by simp)]
    simp
  constructor
  · simp only [removeLecturer, hfind]
    by_cases hresp : a.is_responsible = true
    · by_cases hc : 1 < countLecturers rows a.term_subject_id
      · rw [if_pos hresp, if_pos hc]
        exact iff_of_true rfl ⟨hresp, hcount.mp hc⟩
      · rw [if_pos hresp, if_neg hc]
        exact iff_of_false (by simp) (fun h => hc (hcount.mpr h.2))
    · rw [if_neg hresp]
      exact iff_of_false (by simp) (fun h => hresp h.1)
  · intro hnot
    refine ⟨?_, ?_, ?_⟩
    · simp only [removeLecturer, hfind]
      by_cases hresp : a.is_responsible = true
      · have hc : ¬1 < countLecturers rows a.term_subject_id :=
          fun hc => hnot ⟨hresp, hcount.mp hc⟩
        rw [if_pos hresp, if_neg hc]
      · rw [if_neg hresp]
    · intro r hr hid
      simp only [deleteLecturerAssignment, List.mem_filter]
      refine ⟨hr, ?_⟩
      simpa [bne_iff_ne] using hid
    · simp only [deleteLecturerAssignment, List.mem_filter]
      rintro ⟨-, hkeep⟩
      simp [bne_iff_ne, haid'] at hkeep

/-- Witness for C9: in a concrete table where the responsible lecturer
of term subject 10 is its sole assignee, removal succeeds and deletes
exactly that row. -/
theorem removeLecturer_spec_witness :
    removeLecturer [⟨1, 10, 5, true, none, 0, 2⟩] 1 =
      .ok (deleteLecturerAssignment [⟨1, 10, 5, true, none, 0, 2⟩] 1) :=
  ((removeLecturer_spec [⟨1, 10, 5, true, none, 0, 2⟩] 1 ⟨1, 10, 5, true, none, 0, 2⟩
    (by simp [idsNodup]) (by decide)).2 (by decide)).1

end StudentWorkload

namespace StudentWorkload

/-- The states of the assignment table reachable through the service
operations, starting from the empty table; inserted ids are fresh
(SERIAL primary key). -/
inductive ReachableAssignments : List LecturerAssignment → Prop
  | init : ReachableAssignments []
  | assign (rows : List LecturerAssignment)
      (termSubjectId userId createdBy newId now : Nat)
      (h : ReachableAssignments rows)
      (hfresh : ∀ r ∈ rows, r.id ≠ newId) :
      ReachableAssignments
        (assignProfessor rows termSubjectId userId createdBy newId now)
  | removeProf (rows : List LecturerAssignment) (termSubjectId userId : Nat)
      (h : ReachableAssignments rows) :
      ReachableAssignments (removeProfessor rows termSubjectId userId)
  | removeLect (rows rows' : List LecturerAssignment) (assignmentId : Nat)
      (h : ReachableAssignments rows)
      (hok : removeLecturer rows assignmentId = .ok rows') :
      ReachableAssignments rows'
  | updNotes (rows rows' : List LecturerAssignment) (assignmentId : Nat)
      (notes : Option String) (h : ReachableAssignments rows)
      (hok : updateLecturerNotes rows assignmentId notes = .ok rows') :
      ReachableAssignments rows'
  | changeResp (rows rows' : List LecturerAssignment)
      (termSubjectId newResponsibleUserId : Nat)
      (h : ReachableAssignments rows)
      (hok : changeResponsibleLecturer rows termSubjectId newResponsibleUserId =
        .ok rows') :
      ReachableAssignments rows'

/-- `assignProfessor` never touches the responsibility flags. -/
theorem respCount_assignProfessor (rows : List LecturerAssignment)
    (termSubjectId userId createdBy newId now t : Nat) :
    respCount (assignProfessor rows termSubjectId userId createdBy newId now) t =
      respCount rows t := by
  unfold assignProfessor
  split
  · rfl
  · rw [respCount, List.countP_append]
    simp [respCount]

/-- Deleting rows cannot increase the responsibility count. -/
theorem respCount_filter_le (rows : List LecturerAssignment)
    (q : LecturerAssignment → Bool) (t : Nat) :
    respCount (rows.filter q) t ≤ respCount rows t :=
  (List.filter_sublist rows).countP_le _

/-- A successful `removeLecturer` deletes exactly the target row. -/
theorem removeLecturer_ok_eq {rows rows' : List LecturerAssignment}
    {assignmentId : Nat}
    (hok : removeLecturer rows assignmentId = .ok rows') :
    rows' = deleteLecturerAssignment rows assignmentId := by
  cases hfind : findLecturerAssignmentById rows assignmentId with
  | none =>
      have hbad : removeLecturer rows assignmentId =
          .error ⟨"ASSIGNMENT_NOT_FOUND", 404⟩ := by
        simp only [removeLecturer, hfind]
      rw [hbad] at hok
      cases hok
  | some b =>
      simp only [removeLecturer, hfind] at hok
      by_cases hresp : b.is_responsible = true
      · by_cases hc : 1 < countLecturers rows b.term_subject_id
        · rw [if_pos hresp, if_pos hc] at hok; cases hok
        · rw [if_pos hresp, if_neg hc] at hok
          exact (Except.ok.inj hok).symm
      · rw [if_neg hresp] at hok
        exact (Except.ok.inj hok).symm

/-- Rewriting the notes keeps the responsibility counts, ids being
distinct. -/
theorem respCount_updateLecturerNotes {rows rows' : List LecturerAssignment}
    {assignmentId : Nat} {notes : Option String} (hnd : idsNodup rows)
    (hok : updateLecturerNotes rows assignmentId notes = .ok rows') (t : Nat) :
    respCount rows' t = respCount rows t := by
  have hnd' : (rows.map LecturerAssignment.id).Nodup := hnd
  have hinj := List.inj_on_of_nodup_map hnd'
  cases hfind : findLecturerAssignmentById rows assignmentId with
  | none =>
      have hbad : updateLecturerNotes rows assignmentId notes =
          .error ⟨"ASSIGNMENT_NOT_FOUND", 404⟩ := by
        simp only [updateLecturerNotes, hfind]
      rw [hbad] at hok
      cases hok
  | some b =>
      simp only [updateLecturerNotes, hfind] at hok
      have hbmem : b ∈ rows :=
        List.mem_of_find?_eq_some (hfind :
          rows.find? (fun r => r.id == assignmentId) = some b)
      have hbid : b.id = assignmentId := by
        have := List.find?_some (hfind :
          rows.find? (fun r => r.id == assignmentId) = some b)
        simpa using this
      rw [← Except.ok.inj hok]
      rw [respCount, updateLecturerAssignment, List.countP_map, respCount]
      refine List.countP_congr fun r hr => ?_
      simp only [Function.comp_apply]
      by_cases hid : r.id = assignmentId
      · have hrb : r = b := hinj hr hbmem (by rw [hid, hbid])
        subst hrb
        simp [hid]
      · simp [hid]

/-- Core of `changeResponsibleLecturer`: after clearing all flags of the
term subject and setting the found row, the term subject has exactly one
responsible row and every other term subject keeps its count. -/
theorem changeResponsibleLecturer_respCount
    (rows : List LecturerAssignment) (termSubjectId newUid : Nat)
    (a : LecturerAssignment) (hnd : idsNodup rows)
    (hfind : findLecturerAssignment rows termSubjectId newUid = some a) :
    respCount (updateLecturerAssignment (clearResponsibleLecturers rows termSubjectId)
        a.id true a.notes) termSubjectId = 1 ∧
    (∀ t, t ≠ termSubjectId →
      respCount (updateLecturerAssignment (clearResponsibleLecturers rows termSubjectId)
          a.id true a.notes) t = respCount rows t) := by
  have hnd' : (rows.map LecturerAssignment.id).Nodup := hnd
  have hinj := List.inj_on_of_nodup_map hnd'
  have hfind' : rows.find?
      (fun r => r.term_subject_id == termSubjectId && r.user_id == newUid) = some a :=
    hfind
  have hamem : a ∈ rows := List.mem_of_find?_eq_some hfind'
  have hpa := List.find?_some hfind'
  rw [Bool.and_eq_true, beq_iff_eq, beq_iff_eq] at hpa
  have hats : a.term_subject_id = termSubjectId := hpa.1
  have hone : rows.countP (fun r => r.id == a.id) = 1 := by
    have hcnt := List.count_eq_one_of_mem hnd'
      (List.mem_map_of_mem LecturerAssignment.id hamem)
    rwa [List.count_eq_countP, List.countP_map] at hcnt
  constructor
  · rw [respCount, updateLecturerAssignment, clearResponsibleLecturers,
      List.map_map, List.countP_map]
    refine Eq.trans (List.countP_congr fun r hr => ?_) hone
    simp only [Function.comp_apply]
    by_cases hid : r.id = a.id
    · have hra : r = a := hinj hr hamem hid
      subst hra
      simp [hats]
    · by_cases hts : r.term_subject_id = termSubjectId
      · simp [hts, hid]
      · simp [hts, hid]
  · intro t ht
    rw [respCount, respCount, updateLecturerAssignment, clearResponsibleLecturers,
      List.map_map, List.countP_map]
    refine List.countP_congr fun r hr => ?_
    simp only [Function.comp_apply]
    by_cases hid : r.id = a.id
    · have hra : r = a := hinj hr hamem hid
      subst hra
      simp only [hats]
      simp
      exact fun h => absurd h.symm ht
    · by_cases hts : r.term_subject_id = termSubjectId
      · simp [hts, hid]
        exact fun h => absurd h.symm ht
      · simp [hts, hid]

/-- Reachable assignment tables have pairwise distinct ids. -/
theorem reachable_idsNodup {rows : List LecturerAssignment}
    (h : ReachableAssignments rows) : idsNodup rows := by
  induction h with
  | init => simp [idsNodup]
  | assign rows termSubjectId userId createdBy newId now h hfresh ih =>
      unfold assignProfessor
      split
      · exact ih
      · have hnotin : newId ∉ rows.map LecturerAssignment.id := by
          intro hmem
          obtain ⟨r, hr, hrid⟩ := List.mem_map.mp hmem
          exact hfresh r hr hrid
        simp only [idsNodup, List.map_append, List.map_cons, List.map_nil]
        rw [List.nodup_append]
        exact ⟨ih, List.nodup_singleton _, by
          intro x hx hx1
          rw [List.mem_singleton] at hx1
          exact hnotin (hx1 ▸ hx)⟩
  | removeProf rows termSubjectId userId h ih =>
      exact ((List.filter_sublist rows).map LecturerAssignment.id).nodup ih
  | removeLect rows rows' assignmentId h hok ih =>
      rw [removeLecturer_ok_eq hok]
      exact ((List.filter_sublist rows).map LecturerAssignment.id).nodup ih
  | updNotes rows rows' assignmentId notes h hok ih =>
      cases hfind : findLecturerAssignmentById rows assignmentId with
      | none =>
          have hbad : updateLecturerNotes rows assignmentId notes =
              .error ⟨"ASSIGNMENT_NOT_FOUND", 404⟩ := by
            simp only [updateLecturerNotes, hfind]
          rw [hbad] at hok
          cases hok
      | some b =>
          simp only [updateLecturerNotes, hfind] at hok
          rw [← Except.ok.inj hok]
          have hids : (updateLecturerAssignment rows assignmentId b.is_responsible
              notes).map LecturerAssignment.id = rows.map LecturerAssignment.id := by
            rw [updateLecturerAssignment, List.map_map]
            refine List.map_congr_left fun r hr => ?_
            simp only [Function.comp_apply]
            split <;> rfl
          unfold idsNodup
          rw [hids]
          exact ih
  | changeResp rows rows' termSubjectId newUid h hok ih =>
      cases hfind : findLecturerAssignment rows termSubjectId newUid with
      | none =>
          have hbad : changeResponsibleLecturer rows termSubjectId newUid =
              .error ⟨"LECTURER_NOT_ASSIGNED", 400⟩ := by
            simp only [changeResponsibleLecturer, hfind]
          rw [hbad] at hok
          cases hok
      | some a =>
          simp only [changeResponsibleLecturer, hfind] at hok
          rw [← Except.ok.inj hok]
          have hids : (updateLecturerAssignment
              (clearResponsibleLecturers rows termSubjectId)
              a.id true a.notes).map LecturerAssignment.id =
              rows.map LecturerAssignment.id := by
            rw [updateLecturerAssignment, clearResponsibleLecturers,
              List.map_map, List.map_map]
            refine List.map_congr_left fun r hr => ?_
            simp only [Function.comp_apply]
            split <;> split <;> rfl
          unfold idsNodup
          rw [hids]
          exact ih

/-- Every reachable assignment table satisfies the responsible-lecturer
invariant. -/
theorem reachable_atMostOneResponsible {rows : List LecturerAssignment}
    (h : ReachableAssignments rows) : atMostOneResponsible rows := by
  induction h with
  | init => intro t; simp [respCount]
  | assign rows termSubjectId userId createdBy newId now h hfresh ih =>
      intro t
      rw [respCount_assignProfessor]
      exact ih t
  | removeProf rows termSubjectId userId h ih =>
      intro t
      exact le_trans (respCount_filter_le rows _ t) (ih t)
  | removeLect rows rows' assignmentId h hok ih =>
      intro t
      rw [removeLecturer_ok_eq hok]
      exact le_trans (respCount_filter_le rows _ t) (ih t)
  | updNotes rows rows' assignmentId notes h hok ih =>
      intro t
      rw [respCount_updateLecturerNotes (reachable_idsNodup h) hok t]
      exact ih t
  | changeResp rows rows' termSubjectId newUid h hok ih =>
      intro t
      cases hfind : findLecturerAssignment rows termSubjectId newUid with
      | none =>
          have hbad : changeResponsibleLecturer rows termSubjectId newUid =
              .error ⟨"LECTURER_NOT_ASSIGNED", 400⟩ := by
            simp only [changeResponsibleLecturer, hfind]
          rw [hbad] at hok
          cases hok
      | some a =>
          simp only [changeResponsibleLecturer, hfind] at hok
          rw [← Except.ok.inj hok]
          rcases changeResponsibleLecturer_respCount rows termSubjectId newUid a
            (reachable_idsNodup h) hfind with ⟨h1, h2⟩
          by_cases ht : t = termSubjectId
          · rw [ht, h1]
          · rw [h2 t ht]
            exact ih t

end StudentWorkload

namespace StudentWorkload

/-- C3: `changeResponsibleLecturer` fails with `LECTURER_NOT_ASSIGNED`
(400) when the target is not an assignee of the term subject; on success
(the clear-all-then-set-one update) the term subject has exactly one
responsible assignment — an already-assigned row of the target user —
while every other term subject keeps its responsibility count; and every
assignment table reachable through the service operations has at most
one responsible lecturer per term subject. -/
theorem changeResponsibleLecturer_spec :
    (∀ rows termSubjectId newUid,
      findLecturerAssignment rows termSubjectId newUid = none →
      changeResponsibleLecturer rows termSubjectId newUid =
        .error ⟨"LECTURER_NOT_ASSIGNED", 400⟩) ∧
    (∀ rows termSubjectId newUid rows', idsNodup rows →
      changeResponsibleLecturer rows termSubjectId newUid = .ok rows' →
      respCount rows' termSubjectId = 1 ∧
      (∃ r ∈ rows', r.is_responsible = true ∧ r.term_subject_id = termSubjectId ∧
        r.user_id = newUid) ∧
      (∀ t, t ≠ termSubjectId → respCount rows' t = respCount rows t)) ∧
    (∀ rows, ReachableAssignments rows → atMostOneResponsible rows) := by
  refine ⟨?_, ?_, fun rows h => reachable_atMostOneResponsible h⟩
  · intro rows termSubjectId newUid hfind
    simp only [changeResponsibleLecturer, hfind]
  · intro rows termSubjectId newUid rows' hnd hok
    cases hfind : findLecturerAssignment rows termSubjectId newUid with
    | none =>
        have hbad : changeResponsibleLecturer rows termSubjectId newUid =
            .error ⟨"LECTURER_NOT_ASSIGNED", 400⟩ := by
          simp only [changeResponsibleLecturer, hfind]
        rw [hbad] at hok
        cases hok
    | some a =>
        simp only [changeResponsibleLecturer, hfind] at hok
        rw [← Except.ok.inj hok]
        rcases changeResponsibleLecturer_respCount rows termSubjectId newUid a hnd hfind
          with ⟨h1, h2⟩
        have hfind' : rows.find?
            (fun r => r.term_subject_id == termSubjectId && r.user_id == newUid) =
            some a := hfind
        have hamem : a ∈ rows := List.mem_of_find?_eq_some hfind'
        have hpa := List.find?_some hfind'
        rw [Bool.and_eq_true, beq_iff_eq, beq_iff_eq] at hpa
        have m1 : ({ a with is_responsible := false } : LecturerAssignment) ∈
            clearResponsibleLecturers rows termSubjectId := by
          have hm := List.mem_map_of_mem (fun r =>
            if r.term_subject_id == termSubjectId then
              { r with is_responsible := false } else r) hamem
          simpa [clearResponsibleLecturers, hpa.1] using hm
        have m2 : ({ a with is_responsible := true, notes := a.notes } :
            LecturerAssignment) ∈
            updateLecturerAssignment (clearResponsibleLecturers rows termSubjectId)
              a.id true a.notes := by
          have hm := List.mem_map_of_mem (fun r =>
            if r.id == a.id then
              { r with is_responsible := true, notes := a.notes } else r) m1
          simpa [updateLecturerAssignment] using hm
        exact ⟨h1,
          ⟨{ a with is_responsible := true, notes := a.notes }, m2, rfl, hpa.1, hpa.2⟩,
          h2⟩

/-- Witness for C3: on concrete tables, the not-assigned error fires on
an empty table, changing the responsible lecturer of term subject 10 to
its second assignee yields exactly one responsible row, and the empty
table satisfies the invariant. -/
theorem changeResponsibleLecturer_spec_witness :
    changeResponsibleLecturer [] 4 6 = .error ⟨"LECTURER_NOT_ASSIGNED", 400⟩ ∧
    respCount [⟨1, 10, 5, false, none, 0, 2⟩, ⟨2, 10, 6, true, some "n", 0, 2⟩] 10 = 1 ∧
    atMostOneResponsible [] :=
  ⟨changeResponsibleLecturer_spec.1 [] 4 6 rfl,
   (changeResponsibleLecturer_spec.2.1
      [⟨1, 10, 5, true, none, 0, 2⟩, ⟨2, 10, 6, false, some "n", 0, 2⟩] 10 6 _
      (by unfold idsNodup; decide) rfl).1,
   changeResponsibleLecturer_spec.2.2 [] ReachableAssignments.init⟩

end StudentWorkload

namespace StudentWorkload

/-- A `term_subjects` row as produced by `bulkInsertTermSubjects`:
the (term, subject) join columns followed by the literal column values
of the `INSERT ... SELECT` (`true, false, 'pending', false, false,
'pending', NOW(), created_by`).  The SERIAL id plays no role in the
pair-keyed claims and is omitted. -/
structure TSRow where
  term_id : Nat
  subject_id : Nat
  is_active : Bool
  outline_status : Bool
  outline_approved : String
  workload_status : Bool
  report_status : Bool
  report_approved : String
  created_at : Nat
  created_by : Nat
deriving DecidableEq, Repr

/-- `bulkInsertTermSubjects` (termSubject.repository): the empty input
returns at once; otherwise the `INSERT ... SELECT ... WHERE NOT EXISTS
(SELECT 1 FROM term_subjects ts WHERE ts.term_id = vals.term_id AND
ts.subject_id = vals.subject_id)` inserts every candidate whose pair is
absent from the table.  The `NOT EXISTS` subquery reads the snapshot of
`term_subjects` taken at the start of the statement, so it is evaluated
against the pre-call `rows` for every candidate. -/
def bulkInsertTermSubjects (rows : List TSRow) (termId : Nat)
    (subjectIds : List Nat) (userId now : Nat) : List TSRow :=
  if subjectIds.isEmpty then
    rows
  else
    rows ++ (subjectIds.filter (fun sid =>
        !(rows.any (fun r => r.term_id == termId && r.subject_id == sid)))).map
      (fun sid => ⟨termId, sid, true, false, "pending", false, false, "pending",
        now, userId⟩)

/-- `findTermSubjectsByTermId` (termSubject.repository): the rows of one
term (the `ORDER BY s.code_eng` of the subject join does not matter for
the set-valued claims). -/
def findTermSubjectsByTermId (rows : List TSRow) (termId : Nat) : List TSRow :=
  rows.filter (fun r => r.term_id == termId)

/-- The subject ids listed for a term. -/
def listedSubjects (rows : List TSRow) (termId : Nat) : List Nat :=
  (findTermSubjectsByTermId rows termId).map TSRow.subject_id

/-- Number of rows stored for one (term, subject) pair. -/
def pairCount (rows : List TSRow) (termId subjectId : Nat) : Nat :=
  rows.countP (fun r => r.term_id == termId && r.subject_id == subjectId)

/-- Uniqueness of the (term, subject) pair across the table. -/
def oncePerPair (rows : List TSRow) : Prop :=
  ∀ termId subjectId, pairCount rows termId subjectId ≤ 1

/-- Counterexample for C7: attaching the list `[1, 1]` to the fresh term
1 stores two rows for the pair (1, 1) — the `NOT EXISTS` check sees only
the pre-statement table, so duplicates within the input are not
collapsed to a single TermSubject row per pair. -/
theorem bulkInsertTermSubjects_input_dup_cex :
    pairCount (bulkInsertTermSubjects [] 1 [1, 1] 7 0) 1 1 = 2 := by decide

/-- C7 (amended): attaching a list of pairwise distinct subject ids to a
term and then listing the term's subjects returns exactly the union of
the previously attached ids and the input ids, regardless of the input
order; already-attached subjects are silently skipped rather than
failing the batch, and the one-row-per-pair invariant is preserved; in
particular on a term with no attached subjects the listing is exactly
the input set.  (Duplicates within one input list are not collapsed.) -/
theorem bulkInsertTermSubjects_spec (rows : List TSRow) (termId : Nat)
    (ids : List Nat) (userId now : Nat) :
    (∀ s, s ∈ listedSubjects (bulkInsertTermSubjects rows termId ids userId now) termId ↔
      (s ∈ listedSubjects rows termId ∨ s ∈ ids)) ∧
    (oncePerPair rows → ids.Nodup →
      oncePerPair (bulkInsertTermSubjects rows termId ids userId now)) ∧
    ((∀ r ∈ rows, r.term_id ≠ termId) →
      ∀ s, s ∈ listedSubjects (bulkInsertTermSubjects rows termId ids userId now) termId ↔
        s ∈ ids) := by
  have hmain : ∀ s,
      s ∈ listedSubjects (bulkInsertTermSubjects rows termId ids userId now) termId ↔
        (s ∈ listedSubjects rows termId ∨ s ∈ ids) := by
    intro s
    unfold bulkInsertTermSubjects
    by_cases hemp : ids.isEmpty
    · rw [if_pos hemp]
      rw [List.isEmpty_iff.mp hemp]
      simp
    · rw [if_neg hemp]
      simp only [listedSubjects, findTermSubjectsByTermId, List.filter_append,
        List.map_append, List.mem_append]
      constructor
      · rintro (h | h)
        · exact Or.inl h
        · right
          simp only [List.mem_map, List.mem_filter] at h
          obtain ⟨r, ⟨⟨sid, ⟨hsidmem, -⟩, hfa⟩, -⟩, hs⟩ := h
          rw [← hs, ← hfa]
          exact hsidmem
      · rintro (h | hs)
        · exact Or.inl h
        · rcases Bool.eq_false_or_eq_true
            (rows.any (fun r => r.term_id == termId && r.subject_id == s)) with
            hpres | hpres
          · left
            simp only [List.any_eq_true, Bool.and_eq_true, beq_iff_eq] at hpres
            obtain ⟨r, hr, hrt, hrs⟩ := hpres
            simp only [List.mem_map, List.mem_filter]
            exact ⟨r, ⟨hr, by simp [hrt]⟩, hrs⟩
          · right
            simp only [List.mem_map, List.mem_filter]
            refine ⟨⟨termId, s, true, false, "pending", false, false, "pending",
              now, userId⟩, ⟨⟨s, ⟨hs, ?_⟩, rfl⟩, by simp⟩, rfl⟩
            rw [hpres]
            rfl
  refine ⟨hmain, ?_, ?_⟩
  · intro honce hnd tid sid
    unfold bulkInsertTermSubjects
    by_cases hemp : ids.isEmpty
    · rw [if_pos hemp]; exact honce tid sid
    · rw [if_neg hemp]
      have hgoal : pairCount (rows ++ (ids.filter (fun sid' =>
          !(rows.any (fun r => r.term_id == termId && r.subject_id == sid')))).map
            (fun sid' => (⟨termId, sid', true, false, "pending", false, false,
              "pending", now, userId⟩ : TSRow))) tid sid =
          rows.countP (fun r => r.term_id == tid && r.subject_id == sid) +
          ((ids.filter (fun sid' =>
            !(rows.any (fun r => r.term_id == termId && r.subject_id == sid')))).countP
            (fun sid' => termId == tid && sid' == sid)) := by
        rw [pairCount, List.countP_append, List.countP_map]
        rfl
      rw [hgoal]
      have hold : rows.countP (fun r => r.term_id == tid && r.subject_id == sid) ≤ 1 :=
        honce tid sid
      by_cases htid : termId = tid
      · subst htid
        rcases Bool.eq_false_or_eq_true
            (rows.any (fun r => r.term_id == termId && r.subject_id == sid)) with
            hpres | hpres
        · have hzero : ((ids.filter (fun sid' =>
              !(rows.any (fun r => r.term_id == termId && r.subject_id == sid')))).countP
              (fun sid' => termId == termId && sid' == sid)) = 0 := by
            rw [List.countP_eq_zero]
            intro x hx hpx
            rw [List.mem_filter] at hx
            simp only [Bool.and_eq_true, beq_iff_eq] at hpx
            rw [hpx.2, hpres] at hx
            simp at hx
          omega
        · have hzero : rows.countP
              (fun r => r.term_id == termId && r.subject_id == sid) = 0 := by
            rw [List.countP_eq_zero]
            intro r hr hpr
            rw [List.any_eq_false] at hpres
            exact hpres r hr hpr
          have hle : ((ids.filter (fun sid' =>
              !(rows.any (fun r => r.term_id == termId && r.subject_id == sid')))).countP
              (fun sid' => termId == termId && sid' == sid)) ≤
              ids.countP (fun sid' => sid' == sid) := by
            refine le_trans (le_of_eq (List.countP_congr fun x hx => ?_))
              ((List.filter_sublist ids).countP_le _)
            simp
          have hcnt : ids.countP (fun sid' => sid' == sid) ≤ 1 :=
            List.nodup_iff_count_le_one.mp hnd sid
          omega
      · have hzero : ((ids.filter (fun sid' =>
            !(rows.any (fun r => r.term_id == termId && r.subject_id == sid')))).countP
            (fun sid' => termId == tid && sid' == sid)) = 0 := by
          rw [List.countP_eq_zero]
          intro x hx hpx
          simp only [Bool.and_eq_true, beq_iff_eq] at hpx
          exact htid hpx.1
        omega
  · intro hfresh s
    rw [hmain s]
    constructor
    · rintro (h | h)
      · exfalso
        simp only [listedSubjects, findTermSubjectsByTermId, List.mem_map,
          List.mem_filter, beq_iff_eq] at h
        obtain ⟨r, ⟨hr, hrt⟩, -⟩ := h
        exact hfresh r hr hrt
      · exact h
    · exact fun h => Or.inr h

/-- Witness for C7 (amended): attaching `[3, 1, 2]` to the fresh term 1
keeps one row per pair and lists subject 2. -/
theorem bulkInsertTermSubjects_spec_witness :
    oncePerPair (bulkInsertTermSubjects [] 1 [3, 1, 2] 7 0) ∧
    (2 ∈ listedSubjects (bulkInsertTermSubjects [] 1 [3, 1, 2] 7 0) 1 ↔
      2 ∈ [3, 1, 2]) :=
  ⟨(bulkInsertTermSubjects_spec [] 1 [3, 1, 2] 7 0).2.1
      (fun tid sid => by simp [pairCount]) (by decide),
   (bulkInsertTermSubjects_spec [] 1 [3, 1, 2] 7 0).2.2 (by simp) 2⟩

end StudentWorkload

namespace StudentWorkload

/-- A `work_details` row as read by the chart query: date range and
hours per week (the student-year filter of `filtered_workloads` happens
upstream of the week mapping). -/
structure WorkItem where
  start_date : Nat
  end_date : Nat
  hours_per_week : Nat
deriving DecidableEq, Repr

/-- One summand of the SQL aggregate: `CASE WHEN fw.start_date <=
(fw.term_start_date + week_number * INTERVAL '7 days') AND fw.end_date
>= (fw.term_start_date + (week_number - 1) * INTERVAL '7 days') THEN
fw.hours_per_week ELSE 0 END`. -/
def weekCase (termStart week : Nat) (w : WorkItem) : Nat :=
  if w.start_date ≤ termStart + week * 7 ∧ termStart + (week - 1) * 7 ≤ w.end_date then
    w.hours_per_week
  else 0

/-- `getWorkloadChartData` (termSubject.repository): the recursive CTE
generates the week numbers 1..16; the LEFT JOIN on `1=1` pairs every
week with every filtered work row, and each week's `total_hours` is
`COALESCE(SUM(CASE ...), 0)` over them.  `items` stands for the rows of
`filtered_workloads` for the term. -/
def getWorkloadChartData (termStart : Nat) (items : List WorkItem) :
    List (Nat × Nat) :=
  (List.range 16).map (fun i =>
    (i + 1, (items.map (weekCase termStart (i + 1))).sum))

/-- First day of week `k` (1-indexed): `term_start + (k-1)*7`. -/
def weekStart (termStart k : Nat) : Nat := termStart + (k - 1) * 7

/-- End bound of week `k`: `term_start + k*7`, the exclusive end of the
span `[term_start + (k-1)*7, term_start + k*7)`. -/
def weekEnd (termStart k : Nat) : Nat := termStart + k * 7

/-- C4: the chart is an ordered sequence of exactly 16 weekly totals;
entry `k` (1-indexed) is the sum over the work items of the full
`hours_per_week` of every item whose `[start_date, end_date]` interval
meets the inclusive test `item.start ≤ week.end AND item.end ≥
week.start` against week `k`'s span, each contribution being
all-or-nothing; and a term with no work items yields 16 zeros. -/
theorem getWorkloadChartData_spec (termStart : Nat) (items : List WorkItem) :
    (getWorkloadChartData termStart items).length = 16 ∧
    (∀ k (hk : k - 1 < (getWorkloadChartData termStart items).length), 1 ≤ k →
      (getWorkloadChartData termStart items).get ⟨k - 1, hk⟩ =
        (k, (items.map (fun w =>
          if w.start_date ≤ weekEnd termStart k ∧ weekStart termStart k ≤ w.end_date
          then w.hours_per_week else 0)).sum)) ∧
    (∀ k w, weekCase termStart k w = w.hours_per_week ∨ weekCase termStart k w = 0) ∧
    getWorkloadChartData termStart [] = (List.range 16).map (fun i => (i + 1, 0)) := by
  refine ⟨by simp [getWorkloadChartData], ?_, ?_, ?_⟩
  · intro k hk h1
    have hk16 : k - 1 < 16 := by
      simpa [getWorkloadChartData] using hk
    rw [List.get_eq_getElem]
    simp only [getWorkloadChartData, List.getElem_map, List.getElem_range]
    have hke : k - 1 + 1 = k := by omega
    rw [hke]
    rfl
  · intro k w
    unfold weekCase
    split
    · exact Or.inl rfl
    · exact Or.inr rfl
  · rfl

/-- Witness for C4: with the term starting on day 0, a work item of 7
hours/week covering days 14..34 (exactly weeks 3-5) contributes its
full hours to week 4. -/
theorem getWorkloadChartData_spec_witness :
    (getWorkloadChartData 0 [⟨14, 34, 7⟩]).get ⟨3, by decide⟩ =
      (4, ([(⟨14, 34, 7⟩ : WorkItem)].map (fun w =>
        if w.start_date ≤ weekEnd 0 4 ∧ weekStart 0 4 ≤ w.end_date
        then w.hours_per_week else 0)).sum) :=
  (getWorkloadChartData_spec 0 [⟨14, 34, 7⟩]).2.1 4 (by decide) (by decide)

/-- A `terms` row with the columns read by `getActiveTerm`. -/
structure Term where
  id : Nat
  academic_year : Nat
  academic_sector : Nat
  term_start_date : Nat
  term_end_date : Nat
  is_active : Bool
deriving DecidableEq, Repr

/-- `a` sorts strictly before `b` under `ORDER BY academic_year DESC,
academic_sector DESC`. -/
def laterTerm (a b : Term) : Bool :=
  decide (b.academic_year < a.academic_year) ||
    ((a.academic_year == b.academic_year) &&
      decide (b.academic_sector < a.academic_sector))

/-- The row returned by `ORDER BY academic_year DESC, academic_sector
DESC LIMIT 1`: a maximal row in that order. -/
def topByYearSector : List Term → Option Term
  | [] => none
  | t :: ts =>
      match topByYearSector ts with
      | none => some t
      | some b => if laterTerm t b then some t else some b

/-- `getActiveTerm` (termSubject.repository): the three-tier fallback —
the `is_active` rows, else the rows whose window contains
`CURRENT_DATE` (`today`), else all rows; each tier picks the top of the
`ORDER BY academic_year DESC, academic_sector DESC LIMIT 1` order. -/
def getActiveTerm (today : Nat) (terms : List Term) : Option Term :=
  match topByYearSector (terms.filter (fun t => t.is_active)) with
  | some t => some t
  | none =>
    match topByYearSector (terms.filter (fun t =>
        decide (t.term_start_date ≤ today) && decide (today ≤ t.term_end_date))) with
    | some t => some t
    | none => topByYearSector terms

theorem laterTerm_iff (a b : Term) : laterTerm a b = true ↔
    (b.academic_year < a.academic_year ∨
      (a.academic_year = b.academic_year ∧
        b.academic_sector < a.academic_sector)) := by
  simp [laterTerm]

theorem laterTerm_irrefl (a : Term) : laterTerm a a = false := by
  simp [laterTerm]

theorem laterTerm_trans {a b c : Term} (h1 : laterTerm a b = true)
    (h2 : laterTerm b c = true) : laterTerm a c = true := by
  rw [laterTerm_iff] at h1 h2 ⊢
  omega

theorem topByYearSector_eq_none_iff (l : List Term) :
    topByYearSector l = none ↔ l = [] := by
  induction l with
  | nil => simp [topByYearSector]
  | cons t ts ih =>
      cases hrec : topByYearSector ts with
      | none => simp [topByYearSector, hrec]
      | some b =>
          simp only [topByYearSector, hrec]
          split <;> simp

theorem topByYearSector_mem {l : List Term} {t : Term}
    (h : topByYearSector l = some t) : t ∈ l := by
  induction l generalizing t with
  | nil => cases h
  | cons b ts ih =>
      cases hrec : topByYearSector ts with
      | none =>
          simp only [topByYearSector, hrec] at h
          rw [← Option.some.inj h]
          exact List.mem_cons_self b ts
      | some c =>
          simp only [topByYearSector, hrec] at h
          split at h
          · rw [← Option.some.inj h]
            exact List.mem_cons_self b ts
          · rw [← Option.some.inj h]
            exact List.mem_cons_of_mem _ (ih hrec)

theorem topByYearSector_not_later {l : List Term} {t : Term}
    (h : topByYearSector l = some t) : ∀ u ∈ l, laterTerm u t = false := by
  induction l generalizing t with
  | nil => intro u hu; cases hu
  | cons b ts ih =>
      cases hrec : topByYearSector ts with
      | none =>
          simp only [topByYearSector, hrec] at h
          have hts : ts = [] := (topByYearSector_eq_none_iff ts).mp hrec
          rw [← Option.some.inj h]
          subst hts
          intro u hu
          rw [List.mem_singleton] at hu
          subst hu
          exact laterTerm_irrefl u
      | some c =>
          simp only [topByYearSector, hrec] at h
          by_cases hl : laterTerm b c = true
          · rw [if_pos hl] at h
            rw [← Option.some.inj h]
            intro u hu
            rcases List.mem_cons.mp hu with rfl | hu'
            · exact laterTerm_irrefl u
            · have h1 : laterTerm u c = false := ih hrec u hu'
              cases h2 : laterTerm u b with
              | false => rfl
              | true =>
                  rw [laterTerm_trans h2 hl] at h1
                  cases h1
          · rw [if_neg hl] at h
            rw [← Option.some.inj h]
            intro u hu
            rcases List.mem_cons.mp hu with rfl | hu'
            · cases h2 : laterTerm u c with
              | false => rfl
              | true => exact absurd h2 hl
            · exact ih hrec u hu'

/-- C5: the active term follows the three-tier fallback in order: an
`is_active`-flagged row if one exists; else a row whose date window
contains today; else the most recent row by (academic_year,
academic_sector) descending; and the result is `none` exactly when the
term store is empty. -/
theorem getActiveTerm_spec (today : Nat) (terms : List Term) :
    ((∃ t ∈ terms, t.is_active = true) →
      ∃ t, getActiveTerm today terms = some t ∧ t ∈ terms ∧ t.is_active = true) ∧
    ((∀ t ∈ terms, t.is_active = false) →
      (∃ t ∈ terms, t.term_start_date ≤ today ∧ today ≤ t.term_end_date) →
      ∃ t, getActiveTerm today terms = some t ∧ t ∈ terms ∧
        t.term_start_date ≤ today ∧ today ≤ t.term_end_date) ∧
    ((∀ t ∈ terms, t.is_active = false) →
      (∀ t ∈ terms, ¬(t.term_start_date ≤ today ∧ today ≤ t.term_end_date)) →
      terms ≠ [] →
      ∃ t, getActiveTerm today terms = some t ∧ t ∈ terms ∧
        ∀ u ∈ terms, u.academic_year < t.academic_year ∨
          (u.academic_year = t.academic_year ∧
            u.academic_sector ≤ t.academic_sector)) ∧
    (getActiveTerm today terms = none ↔ terms = []) := by
  have hactive : (∀ t ∈ terms, t.is_active = false) →
      terms.filter (fun t => t.is_active) = [] := by
    intro hall
    rw [List.filter_eq_nil_iff]
    intro t ht
    rw [hall t ht]
    simp
  have hdate : (∀ t ∈ terms, ¬(t.term_start_date ≤ today ∧ today ≤ t.term_end_date)) →
      terms.filter (fun t =>
        decide (t.term_start_date ≤ today) && decide (today ≤ t.term_end_date)) = [] := by
    intro hall
    rw [List.filter_eq_nil_iff]
    intro t ht
    simp only [Bool.and_eq_true, decide_eq_true_eq]
    exact fun hc => hall t ht hc
  refine ⟨?_, ?_, ?_, ?_⟩
  · rintro ⟨t0, ht0, hact⟩
    have hne : terms.filter (fun t => t.is_active) ≠ [] := by
      intro hnil
      rw [List.filter_eq_nil_iff] at hnil
      exact hnil t0 ht0 hact
    cases htop : topByYearSector (terms.filter (fun t => t.is_active)) with
    | none => exact absurd ((topByYearSector_eq_none_iff _).mp htop) hne
    | some t =>
        have hmem := topByYearSector_mem htop
        rw [List.mem_filter] at hmem
        refine ⟨t, ?_, hmem.1, hmem.2⟩
        unfold getActiveTerm
        rw [htop]
  · intro hall ⟨t0, ht0, hc0⟩
    have h1 : terms.filter (fun t => t.is_active) = [] := hactive hall
    have hne : terms.filter (fun t =>
        decide (t.term_start_date ≤ today) && decide (today ≤ t.term_end_date)) ≠ [] := by
      intro hnil
      rw [List.filter_eq_nil_iff] at hnil
      refine hnil t0 ht0 ?_
      simp only [Bool.and_eq_true, decide_eq_true_eq]
      exact hc0
    cases htop : topByYearSector (terms.filter (fun t =>
        decide (t.term_start_date ≤ today) && decide (today ≤ t.term_end_date))) with
    | none => exact absurd ((topByYearSector_eq_none_iff _).mp htop) hne
    | some t =>
        have hmem := topByYearSector_mem htop
        rw [List.mem_filter] at hmem
        have hmem2 := hmem.2
        simp only [Bool.and_eq_true, decide_eq_true_eq] at hmem2
        refine ⟨t, ?_, hmem.1, hmem2.1, hmem2.2⟩
        unfold getActiveTerm
        rw [h1, htop]
        simp [topByYearSector]
  · intro hall1 hall2 hne
    have h1 : terms.filter (fun t => t.is_active) = [] := hactive hall1
    have h2 : terms.filter (fun t =>
        decide (t.term_start_date ≤ today) && decide (today ≤ t.term_end_date)) = [] :=
      hdate hall2
    cases htop : topByYearSector terms with
    | none => exact absurd ((topByYearSector_eq_none_iff _).mp htop) hne
    | some t =>
        refine ⟨t, ?_, topByYearSector_mem htop, ?_⟩
        · unfold getActiveTerm
          rw [h1, h2]
          simp [topByYearSector, htop]
        · intro u hu
          have := topByYearSector_not_later htop u hu
          have hnot : ¬(t.academic_year < u.academic_year ∨
              (u.academic_year = t.academic_year ∧
                t.academic_sector < u.academic_sector)) := by
            rw [← laterTerm_iff]
            rw [this]
            simp
          omega
  · constructor
    · intro hnone
      unfold getActiveTerm at hnone
      cases h1 : topByYearSector (terms.filter (fun t => t.is_active)) with
      | some t => rw [h1] at hnone; cases hnone
      | none =>
          rw [h1] at hnone
          cases h2 : topByYearSector (terms.filter (fun t =>
              decide (t.term_start_date ≤ today) && decide (today ≤ t.term_end_date))) with
          | some t => rw [h2] at hnone; cases hnone
          | none =>
              rw [h2] at hnone
              exact (topByYearSector_eq_none_iff terms).mp hnone
    · intro hnil
      subst hnil
      rfl

/-- Witness for C5: a one-term store with the flag unset and a window
not containing day 50 falls back to the most recent row. -/
theorem getActiveTerm_spec_witness :
    ∃ t, getActiveTerm 50 [⟨1, 2567, 2, 100, 200, false⟩] = some t ∧
      t ∈ [(⟨1, 2567, 2, 100, 200, false⟩ : Term)] ∧
      ∀ u ∈ [(⟨1, 2567, 2, 100, 200, false⟩ : Term)],
        u.academic_year < t.academic_year ∨
          (u.academic_year = t.academic_year ∧
            u.academic_sector ≤ t.academic_sector) :=
  (getActiveTerm_spec 50 [⟨1, 2567, 2, 100, 200, false⟩]).2.2.1
    (by decide) (by decide) (by decide)

end StudentWorkload

namespace StudentWorkload

/-- The parsed fields of a term payload: year and sector as integers,
each date as a day number.  The `validateDateFormat` checks of the
source concern the YYYY-MM-DD string syntax only and are vacuous on
already-parsed dates; `new Date` comparison is comparison of the day
numbers. -/
structure TermData where
  academic_year : Nat
  academic_sector : Nat
  term_start_date : Nat
  term_end_date : Nat
  midterm_start_date : Nat
  midterm_end_date : Nat
  final_start_date : Nat
  final_end_date : Nat
deriving DecidableEq, Repr

/-- `validateAcademicYear` as the message list it contributes: `!year`
(zero), then `year < 2000 || year > 3000`. -/
def validateAcademicYearErrors (year : Nat) : List String :=
  if year = 0 then ["Academic year is required"]
  else if year < 2000 ∨ 3000 < year then
    ["Academic year must be between 2000 and 3000"]
  else []

/-- `validateAcademicSector` as the message list it contributes. -/
def validateAcademicSectorErrors (sector : Nat) : List String :=
  if sector = 0 then ["Academic sector is required"]
  else if ¬(sector = 1 ∨ sector = 2 ∨ sector = 3) then
    ["Academic sector must be 1, 2, or 3"]
  else []

/-- `validateDateRange`: throws when `end <= start` (strict
end-after-start). -/
def validateDateRangeErrors (startDate endDate : Nat) (rangeLabel : String) :
    List String :=
  if endDate ≤ startDate then
    [rangeLabel ++ ": End date must be after start date"]
  else []

/-- `validateDateWithinRange`: throws when `date < rangeStart || date >
rangeEnd`. -/
def validateDateWithinRangeErrors (date rangeStart rangeEnd : Nat)
    (label : String) : List String :=
  if date < rangeStart ∨ rangeEnd < date then
    [label ++ s!" must be within term dates ({rangeStart} to {rangeEnd})"]
  else []

/-- `validateNoDateOverlap`: throws when `r1Start <= r2End && r2Start <=
r1End`. -/
def validateNoDateOverlapErrors (range1Start range1End range2Start range2End : Nat)
    (label1 label2 : String) : List String :=
  if range1Start ≤ range2End ∧ range2Start ≤ range1End then
    [label1 ++ " and " ++ label2 ++ " dates cannot overlap"]
  else []

/-- The two sequential `validateDateWithinRange` calls of the
midterm-within-term try block: the first throw wins, so the end-date
check runs only when the start date passed. -/
def midtermWithinErrors (td : TermData) : List String :=
  match validateDateWithinRangeErrors td.midterm_start_date td.term_start_date
      td.term_end_date "Midterm start date" with
  | [] => validateDateWithinRangeErrors td.midterm_end_date td.term_start_date
      td.term_end_date "Midterm end date"
  | es => es

/-- The final-exam-within-term try block, like `midtermWithinErrors`. -/
def finalWithinErrors (td : TermData) : List String :=
  match validateDateWithinRangeErrors td.final_start_date td.term_start_date
      td.term_end_date "Final exam start date" with
  | [] => validateDateWithinRangeErrors td.final_end_date td.term_start_date
      td.term_end_date "Final exam end date"
  | es => es

/-- The accumulated date-logic messages of `validateTermData`, in the
order the source pushes them. -/
def termDateErrors (td : TermData) : List String :=
  validateDateRangeErrors td.term_start_date td.term_end_date "Term dates" ++
  validateDateRangeErrors td.midterm_start_date td.midterm_end_date "Midterm dates" ++
  validateDateRangeErrors td.final_start_date td.final_end_date "Final exam dates" ++
  midtermWithinErrors td ++ finalWithinErrors td ++
  validateNoDateOverlapErrors td.midterm_start_date td.midterm_end_date
    td.final_start_date td.final_end_date "Midterm" "Final exam"

/-- `validateTermData`: the basic (year, sector) errors return early;
otherwise the accumulated date-logic errors are raised together in one
ValidationError, and an empty list means acceptance. -/
def validateTermData (td : TermData) : Except (List String) Unit :=
  if (validateAcademicYearErrors td.academic_year ++
      validateAcademicSectorErrors td.academic_sector) ≠ [] then
    .error (validateAcademicYearErrors td.academic_year ++
      validateAcademicSectorErrors td.academic_sector)
  else if termDateErrors td ≠ [] then
    .error (termDateErrors td)
  else
    .ok ()

/-- The date clauses under which the code accepts a term: strict
end-after-start for each window, both exam windows inside
`[term_start, term_end]`, and the exam windows not overlapping
(inclusive test). -/
def termDateClausesOk (td : TermData) : Prop :=
  td.term_start_date < td.term_end_date ∧
  td.midterm_start_date < td.midterm_end_date ∧
  td.final_start_date < td.final_end_date ∧
  td.term_start_date ≤ td.midterm_start_date ∧
  td.midterm_end_date ≤ td.term_end_date ∧
  td.term_start_date ≤ td.final_start_date ∧
  td.final_end_date ≤ td.term_end_date ∧
  ¬(td.midterm_start_date ≤ td.final_end_date ∧
    td.final_start_date ≤ td.midterm_end_date)

/-- A term payload with a one-day midterm window (start = end = day 10),
valid year and sector, exam windows inside the term and disjoint. -/
def termDataPointMidterm : TermData := ⟨2567, 1, 1, 100, 10, 10, 20, 21⟩

/-- Counterexample for C6: `termDataPointMidterm` satisfies every clause
of the claim — `midterm_start ≤ midterm_end`, `final_start ≤ final_end`,
both windows inside `[term_start, term_end]`, windows non-overlapping —
with a valid year and sector, yet `validateTermData` rejects it: the
code requires strictly `end > start` for each window. -/
theorem validateTermData_le_cex :
    (termDataPointMidterm.midterm_start_date ≤ termDataPointMidterm.midterm_end_date ∧
     termDataPointMidterm.final_start_date ≤ termDataPointMidterm.final_end_date ∧
     termDataPointMidterm.term_start_date ≤ termDataPointMidterm.midterm_start_date ∧
     termDataPointMidterm.midterm_end_date ≤ termDataPointMidterm.term_end_date ∧
     termDataPointMidterm.term_start_date ≤ termDataPointMidterm.final_start_date ∧
     termDataPointMidterm.final_end_date ≤ termDataPointMidterm.term_end_date ∧
     ¬(termDataPointMidterm.midterm_start_date ≤ termDataPointMidterm.final_end_date ∧
       termDataPointMidterm.final_start_date ≤ termDataPointMidterm.midterm_end_date)) ∧
    validateTermData termDataPointMidterm =
      .error ["Midterm dates: End date must be after start date"] :=
  ⟨by decide, rfl⟩

theorem validateDateRangeErrors_eq_nil_iff (a b : Nat) (l : String) :
    validateDateRangeErrors a b l = [] ↔ a < b := by
  unfold validateDateRangeErrors
  split
  · exact iff_of_false (by simp) (by omega)
  · exact iff_of_true rfl (by omega)

theorem validateDateWithinRangeErrors_eq_nil_iff (d rs re : Nat) (l : String) :
    validateDateWithinRangeErrors d rs re l = [] ↔ (rs ≤ d ∧ d ≤ re) := by
  unfold validateDateWithinRangeErrors
  split
  · exact iff_of_false (by simp) (by omega)
  · exact iff_of_true rfl (by omega)

theorem validateNoDateOverlapErrors_eq_nil_iff (r1s r1e r2s r2e : Nat)
    (l1 l2 : String) :
    validateNoDateOverlapErrors r1s r1e r2s r2e l1 l2 = [] ↔
      ¬(r1s ≤ r2e ∧ r2s ≤ r1e) := by
  unfold validateNoDateOverlapErrors
  split
  · exact iff_of_false (by simp) (by tauto)
  · exact iff_of_true rfl (by assumption)

theorem midtermWithinErrors_eq_nil_iff (td : TermData) :
    midtermWithinErrors td = [] ↔
      (td.term_start_date ≤ td.midterm_start_date ∧
       td.midterm_start_date ≤ td.term_end_date ∧
       td.term_start_date ≤ td.midterm_end_date ∧
       td.midterm_end_date ≤ td.term_end_date) := by
  cases hfirst : validateDateWithinRangeErrors td.midterm_start_date
      td.term_start_date td.term_end_date "Midterm start date" with
  | nil =>
      simp only [midtermWithinErrors, hfirst]
      rw [validateDateWithinRangeErrors_eq_nil_iff]
      have h1 := (validateDateWithinRangeErrors_eq_nil_iff td.midterm_start_date
        td.term_start_date td.term_end_date "Midterm start date").mp hfirst
      constructor
      · exact fun h => ⟨h1.1, h1.2, h.1, h.2⟩
      · exact fun h => ⟨h.2.2.1, h.2.2.2⟩
  | cons m ms =>
      simp only [midtermWithinErrors, hfirst]
      refine iff_of_false (by simp) ?_
      intro h
      have : validateDateWithinRangeErrors td.midterm_start_date
          td.term_start_date td.term_end_date "Midterm start date" = [] :=
        (validateDateWithinRangeErrors_eq_nil_iff _ _ _ _).mpr ⟨h.1, h.2.1⟩
      rw [hfirst] at this
      cases this

theorem finalWithinErrors_eq_nil_iff (td : TermData) :
    finalWithinErrors td = [] ↔
      (td.term_start_date ≤ td.final_start_date ∧
       td.final_start_date ≤ td.term_end_date ∧
       td.term_start_date ≤ td.final_end_date ∧
       td.final_end_date ≤ td.term_end_date) := by
  cases hfirst : validateDateWithinRangeErrors td.final_start_date
      td.term_start_date td.term_end_date "Final exam start date" with
  | nil =>
      simp only [finalWithinErrors, hfirst]
      rw [validateDateWithinRangeErrors_eq_nil_iff]
      have h1 := (validateDateWithinRangeErrors_eq_nil_iff td.final_start_date
        td.term_start_date td.term_end_date "Final exam start date").mp hfirst
      constructor
      · exact fun h => ⟨h1.1, h1.2, h.1, h.2⟩
      · exact fun h => ⟨h.2.2.1, h.2.2.2⟩
  | cons m ms =>
      simp only [finalWithinErrors, hfirst]
      refine iff_of_false (by simp) ?_
      intro h
      have : validateDateWithinRangeErrors td.final_start_date
          td.term_start_date td.term_end_date "Final exam start date" = [] :=
        (validateDateWithinRangeErrors_eq_nil_iff _ _ _ _).mpr ⟨h.1, h.2.1⟩
      rw [hfirst] at this
      cases this

theorem termDateErrors_eq_nil_iff (td : TermData) :
    termDateErrors td = [] ↔ termDateClausesOk td := by
  unfold termDateErrors termDateClausesOk
  simp only [List.append_eq_nil, validateDateRangeErrors_eq_nil_iff,
    midtermWithinErrors_eq_nil_iff, finalWithinErrors_eq_nil_iff,
    validateNoDateOverlapErrors_eq_nil_iff]
  constructor <;> intro h <;> omega

end StudentWorkload

namespace StudentWorkload

/-- C6 (amended): for a payload with valid academic year and sector,
term validation accepts exactly the terms satisfying strict
end-after-start for the term, midterm and final windows (`start < end`,
not `start ≤ end`), both exam windows contained in
`[term_start, term_end]`, and the exam windows non-overlapping under
the inclusive test; any violating input raises a single ValidationError
whose non-empty details contain a specific message for each violated
clause (for a window-containment clause, the start-date message, or the
end-date message when the start date lies inside the term),
accumulating all of them before raising. -/
theorem validateTermData_spec (td : TermData)
    (hy : td.academic_year ≠ 0 ∧ 2000 ≤ td.academic_year ∧ td.academic_year ≤ 3000)
    (hs : td.academic_sector = 1 ∨ td.academic_sector = 2 ∨ td.academic_sector = 3) :
    (validateTermData td = .ok () ↔ termDateClausesOk td) ∧
    (∀ errs, validateTermData td = .error errs →
      errs ≠ [] ∧
      (td.term_end_date ≤ td.term_start_date →
        "Term dates: End date must be after start date" ∈ errs) ∧
      (td.midterm_end_date ≤ td.midterm_start_date →
        "Midterm dates: End date must be after start date" ∈ errs) ∧
      (td.final_end_date ≤ td.final_start_date →
        "Final exam dates: End date must be after start date" ∈ errs) ∧
      (¬(td.term_start_date ≤ td.midterm_start_date ∧
          td.midterm_start_date ≤ td.term_end_date ∧
          td.term_start_date ≤ td.midterm_end_date ∧
          td.midterm_end_date ≤ td.term_end_date) →
        ∃ m, m ∈ midtermWithinErrors td ∧ m ∈ errs) ∧
      (¬(td.term_start_date ≤ td.final_start_date ∧
          td.final_start_date ≤ td.term_end_date ∧
          td.term_start_date ≤ td.final_end_date ∧
          td.final_end_date ≤ td.term_end_date) →
        ∃ m, m ∈ finalWithinErrors td ∧ m ∈ errs) ∧
      ((td.midterm_start_date ≤ td.final_end_date ∧
        td.final_start_date ≤ td.midterm_end_date) →
        "Midterm and Final exam dates cannot overlap" ∈ errs)) := by
  have hyear : validateAcademicYearErrors td.academic_year = [] := by
    unfold validateAcademicYearErrors
    rw [if_neg hy.1, if_neg (by omega)]
  have hsec : validateAcademicSectorErrors td.academic_sector = [] := by
    unfold validateAcademicSectorErrors
    rw [if_neg (by omega), if_neg (not_not_intro hs)]
  have hval : validateTermData td =
      (if termDateErrors td ≠ [] then .error (termDateErrors td) else .ok ()) := by
    unfold validateTermData
    rw [hyear, hsec]
    simp
  constructor
  · rw [hval]
    by_cases hn : termDateErrors td = []
    · rw [if_neg (not_not_intro hn)]
      exact iff_of_true rfl ((termDateErrors_eq_nil_iff td).mp hn)
    · rw [if_pos hn]
      exact iff_of_false (by simp) (fun h => hn ((termDateErrors_eq_nil_iff td).mpr h))
  · intro errs herr
    rw [hval] at herr
    by_cases hn : termDateErrors td = []
    · rw [if_neg (not_not_intro hn)] at herr
      cases herr
    · rw [if_pos hn] at herr
      have herrs : errs = termDateErrors td := (Except.error.inj herr).symm
      subst herrs
      refine ⟨hn, ?_, ?_, ?_, ?_, ?_, ?_⟩
      · intro hv
        unfold termDateErrors
        refine List.mem_append_left _ (List.mem_append_left _
          (List.mem_append_left _ (List.mem_append_left _
            (List.mem_append_left _ ?_))))
        unfold validateDateRangeErrors
        rw [if_pos hv]
        exact List.mem_singleton_self _
      · intro hv
        unfold termDateErrors
        refine List.mem_append_left _ (List.mem_append_left _
          (List.mem_append_left _ (List.mem_append_left _
            (List.mem_append_right _ ?_))))
        unfold validateDateRangeErrors
        rw [if_pos hv]
        exact List.mem_singleton_self _
      · intro hv
        unfold termDateErrors
        refine List.mem_append_left _ (List.mem_append_left _
          (List.mem_append_left _ (List.mem_append_right _ ?_)))
        unfold validateDateRangeErrors
        rw [if_pos hv]
        exact List.mem_singleton_self _
      · intro hv
        have hne : midtermWithinErrors td ≠ [] := by
          intro hnil
          exact hv ((midtermWithinErrors_eq_nil_iff td).mp hnil)
        obtain ⟨m, hm⟩ := List.exists_mem_of_ne_nil _ hne
        refine ⟨m, hm, ?_⟩
        unfold termDateErrors
        exact List.mem_append_left _ (List.mem_append_left _
          (List.mem_append_right _ hm))
      · intro hv
        have hne : finalWithinErrors td ≠ [] := by
          intro hnil
          exact hv ((finalWithinErrors_eq_nil_iff td).mp hnil)
        obtain ⟨m, hm⟩ := List.exists_mem_of_ne_nil _ hne
        refine ⟨m, hm, ?_⟩
        unfold termDateErrors
        exact List.mem_append_left _ (List.mem_append_right _ hm)
      · intro hv
        unfold termDateErrors
        refine List.mem_append_right _ ?_
        unfold validateNoDateOverlapErrors
        rw [if_pos hv]
        exact List.mem_singleton_self _

/-- Witness for C6 (amended): a concrete well-formed term — year 2567,
sector 1, term days 1..100, midterm 10..20, final 40..50 — is
accepted. -/
theorem validateTermData_spec_witness :
    validateTermData ⟨2567, 1, 1, 100, 10, 20, 40, 50⟩ = .ok () :=
  (validateTermData_spec ⟨2567, 1, 1, 100, 10, 20, 40, 50⟩
    (by decide) (by decide)).1.mpr
    (by unfold termDateClausesOk; decide)

end StudentWorkload
